import Mathlib

/-!
# Verification of the Visionary contact-management API data core

Shallow embedding of the route handlers of the Visionary API
(Express routes `contacts.js`, `phoneNumbers.js`, `users.js`, the
Next.js API handlers, and the helpers `lib/db.js` / `lib/utils.js`)
over an explicit relational state, together with theorems settling
the frozen specification claims.
-/

namespace Visionary

/-- A row of the `users` table (columns used by the handlers). -/
structure User where
  id : Nat
  name : String
deriving Repr, DecidableEq

/-- A row of the `contacts` table. -/
structure Contact where
  id : Nat
  user_id : Nat
  name : String
  is_emergency : Bool
  relationship : Option String
  image : Option String
deriving Repr, DecidableEq

/-- A row of the `contact_phone_numbers` table. -/
structure PhoneNumber where
  id : Nat
  contact_id : Nat
  phone_number : String
  phone_type : String
  is_primary : Bool
deriving Repr, DecidableEq

/-- The relational store the handlers query: lists of rows, in storage
order (a `SELECT` without `ORDER BY` returns rows in this order). -/
structure DBState where
  users : List User
  contacts : List Contact
  phones : List PhoneNumber
deriving Repr, DecidableEq

/-- Transport-level outcome of a handler, as mapped by `apiResponse`. -/
inductive Outcome
  | ok
  | created
  | noContent
  | forbidden
  | notFound
deriving Repr, DecidableEq

/-- JavaScript `x || d` on an optional string: `undefined` and the empty
string are falsy, any other string is returned unchanged. -/
def jsOrStr (o : Option String) (d : String) : String :=
  match o with
  | none => d
  | some s => if s = "" then d else s

/-- Fresh `contacts.id` for an insert (`RETURNING *` on a serial key). -/
def nextContactId (s : DBState) : Nat :=
  (s.contacts.map (·.id)).foldr max 0 + 1

/-- Fresh `contact_phone_numbers.id` for an insert. -/
def nextPhoneId (s : DBState) : Nat :=
  (s.phones.map (·.id)).foldr max 0 + 1

/-- The payload of one element of the `phone_numbers` array accepted by
the contact-creation handler. -/
structure PhonePayload where
  phone_number : String
  phone_type : Option String
  is_primary : Option Bool
deriving Repr, DecidableEq

end Visionary

namespace Visionary

/-! ## `lib/db.js`: the connection pool and the transaction helper -/

/-- The `pg` connection pool, abstracted to its occupancy counts. -/
structure Pool where
  available : Nat
  inUse : Nat
deriving Repr, DecidableEq

/-- `db.transaction(callback)` from `lib/db.js`: acquire a client from
the pool, `BEGIN`, run the callback, `COMMIT` and return its result on
success, `ROLLBACK` and re-throw on failure, and `release()` the client
in the `finally` block on both paths.  The callback is modelled as a
function from the database state to either a result together with the
mutated state (success) or a thrown error (failure). -/
def transaction {α : Type} (p : Pool) (db : DBState)
    (callback : DBState → Except String (α × DBState)) :
    Except String α × DBState × Pool :=
  let acquired : Pool := ⟨p.available - 1, p.inUse + 1⟩
  match callback db with
  | .ok (a, db') =>
      (.ok a, db', ⟨acquired.available + 1, acquired.inUse - 1⟩)
  | .error e =>
      (.error e, db, ⟨acquired.available + 1, acquired.inUse - 1⟩)

/-! ## `lib/utils.js`: the `paginate` middleware -/

/-- JavaScript `parseInt(q) || d`: a non-numeric query string parses to
`NaN` (falsy, modelled `none`) and `0` is falsy, so both fall back to
the default; any other parsed integer — negative included — is kept. -/
def jsParseIntOr (o : Option Int) (d : Int) : Int :=
  match o with
  | none => d
  | some v => if v = 0 then d else v

/-- The `req.pagination` object built by the middleware. -/
structure Pagination where
  page : Int
  limit : Int
  offset : Int
deriving Repr, DecidableEq

/-- The `paginate` middleware from `lib/utils.js`:
`page = parseInt(req.query.page) || 1`,
`limit = parseInt(req.query.limit) || 10`,
`offset = (page - 1) * limit`. -/
def paginate (pageQ limitQ : Option Int) : Pagination :=
  let page := jsParseIntOr pageQ 1
  let limit := jsParseIntOr limitQ 10
  ⟨page, limit, (page - 1) * limit⟩

/-! ## SQL orderings used by the listing queries -/

/-- The comparator of `ORDER BY is_emergency DESC, name ASC` on
`contacts` (`true` sorts before `false` under `DESC`). -/
def ContactOrder (a b : Contact) : Prop :=
  (a.is_emergency = true ∧ b.is_emergency = false) ∨
    (a.is_emergency = b.is_emergency ∧ a.name ≤ b.name)

instance : DecidableRel ContactOrder := fun a b => by
  unfold ContactOrder; infer_instance

/-- The comparator of `ORDER BY is_primary DESC, phone_type ASC` on
`contact_phone_numbers`. -/
def PhoneOrder (a b : PhoneNumber) : Prop :=
  (a.is_primary = true ∧ b.is_primary = false) ∨
    (a.is_primary = b.is_primary ∧ a.phone_type ≤ b.phone_type)

instance : DecidableRel PhoneOrder := fun a b => by
  unfold PhoneOrder; infer_instance

instance : IsTotal Contact ContactOrder where
  total a b := by
    unfold ContactOrder
    rcases le_total a.name b.name with h | h <;>
      cases ha : a.is_emergency <;> cases hb : b.is_emergency <;> simp [h]

instance : IsTrans Contact ContactOrder where
  trans a b c hab hbc := by
    unfold ContactOrder at *
    rcases hab with ⟨h1, h2⟩ | ⟨h1, h2⟩
    · rcases hbc with ⟨h3, h4⟩ | ⟨h3, h4⟩
      · exact absurd h3 (by simp [h2])
      · exact Or.inl ⟨h1, h3 ▸ h2⟩
    · rcases hbc with ⟨h3, h4⟩ | ⟨h3, h4⟩
      · exact Or.inl ⟨h1.trans h3, h4⟩
      · exact Or.inr ⟨h1.trans h3, le_trans h2 h4⟩

instance : IsTotal PhoneNumber PhoneOrder where
  total a b := by
    unfold PhoneOrder
    rcases le_total a.phone_type b.phone_type with h | h <;>
      cases ha : a.is_primary <;> cases hb : b.is_primary <;> simp [h]

instance : IsTrans PhoneNumber PhoneOrder where
  trans a b c hab hbc := by
    unfold PhoneOrder at *
    rcases hab with ⟨h1, h2⟩ | ⟨h1, h2⟩
    · rcases hbc with ⟨h3, h4⟩ | ⟨h3, h4⟩
      · exact absurd h3 (by simp [h2])
      · exact Or.inl ⟨h1, h3 ▸ h2⟩
    · rcases hbc with ⟨h3, h4⟩ | ⟨h3, h4⟩
      · exact Or.inl ⟨h1.trans h3, h4⟩
      · exact Or.inr ⟨h1.trans h3, le_trans h2 h4⟩

/-! ## `routes/contacts.js` handlers -/

/-- `GET /api/contacts` row scan: `SELECT * FROM contacts WHERE
user_id = $1 ORDER BY is_emergency DESC, name ASC` (no window). -/
def ownedContacts (s : DBState) (uid : Nat) : List Contact :=
  List.insertionSort ContactOrder (s.contacts.filter (fun c => c.user_id == uid))

/-- Phone-number fetch of the contact aggregate: `SELECT * FROM
contact_phone_numbers WHERE contact_id = $1` — no `ORDER BY`. -/
def phonesOf (s : DBState) (cid : Nat) : List PhoneNumber :=
  s.phones.filter (fun q => q.contact_id == cid)

/-- `GET /api/contacts` (list handler): applies `LIMIT`/`OFFSET` from
`req.pagination`, counts the owner's contacts separately, attaches each
contact's phone numbers, and reports `pages = Math.ceil(total/limit)`. -/
def listByUser (s : DBState) (uid page limit : Nat) :
    List (Contact × List PhoneNumber) × Nat × Nat :=
  let offset := (page - 1) * limit
  let rows := ((ownedContacts s uid).drop offset).take limit
  let total := (s.contacts.filter (fun c => c.user_id == uid)).length
  let pages := (total + limit - 1) / limit
  (rows.map (fun c => (c, phonesOf s c.id)), total, pages)

/-- `GET /api/contacts/:id`: resolve the row, enforce ownership, then
attach the phone numbers (unordered fetch). -/
def getContact (s : DBState) (principal cid : Nat) :
    Outcome × Option (Contact × List PhoneNumber) :=
  match s.contacts.find? (fun c => c.id == cid) with
  | none => (.notFound, none)
  | some c =>
      if c.user_id ≠ principal then (.forbidden, none)
      else (.ok, some (c, phonesOf s cid))

/-- The `for (const phone of phone_numbers)` loop of the
contact-creation handler: each iteration runs
`INSERT INTO contact_phone_numbers (contact_id, phone_number,
phone_type, is_primary) VALUES ($1, $2, phone.phone_type || 'mobile',
phone.is_primary || false)`. -/
def insertContactPhones (cid : Nat) (l : List PhonePayload)
    (st : DBState) : DBState :=
  l.foldl
    (fun st p =>
      { st with phones := st.phones ++
          [⟨nextPhoneId st, cid, p.phone_number,
            jsOrStr p.phone_type "mobile", p.is_primary.getD false⟩] })
    st

/-- `POST /api/contacts`: inside one transaction, insert the contact
row (owner forced to the principal), then insert each payload phone
number with `phone.phone_type || 'mobile'` and
`phone.is_primary || false` — no primary flag is cleared anywhere. -/
def createContact (s : DBState) (principal : Nat) (name : String)
    (is_emergency : Option Bool) (relationship image : Option String)
    (phone_numbers : List PhonePayload) : Outcome × DBState :=
  let cid := nextContactId s
  let contact : Contact :=
    ⟨cid, principal, name, is_emergency.getD false, relationship, image⟩
  let s1 : DBState := { s with contacts := s.contacts ++ [contact] }
  (.created, insertContactPhones cid phone_numbers s1)

/-- `PUT /api/contacts/:id`: look up the row's owner; missing row →
404, foreign owner → 403 with no write; otherwise apply the
`COALESCE` patch to the row. -/
def updateContact (s : DBState) (principal cid : Nat)
    (name : Option String) (is_emergency : Option Bool)
    (relationship image : Option String) : Outcome × DBState :=
  match s.contacts.find? (fun c => c.id == cid) with
  | none => (.notFound, s)
  | some c =>
      if c.user_id ≠ principal then (.forbidden, s)
      else
        (.ok,
          { s with contacts := s.contacts.map (fun c0 =>
              if c0.id == cid then
                { c0 with
                  name := name.getD c0.name,
                  is_emergency := is_emergency.getD c0.is_emergency,
                  relationship :=
                    match relationship with
                    | none => c0.relationship
                    | some r => some r,
                  image :=
                    match image with
                    | none => c0.image
                    | some i => some i }
              else c0) })

/-! ## `routes/users.js` handlers -/

/-- `DELETE /api/users/:id`: after the principal check, one transaction
issues `DELETE FROM contacts WHERE user_id = $1` and then
`DELETE FROM users WHERE id = $1 RETURNING id`; a zero-row user delete
answers 404.  No statement touches `contact_phone_numbers`. -/
def deleteUser (s : DBState) (principal uid : Nat) : Outcome × DBState :=
  if uid ≠ principal then (.forbidden, s)
  else
    let s1 : DBState :=
      { s with contacts := s.contacts.filter (fun c => c.user_id ≠ uid) }
    let hit := s1.users.any (fun u => u.id == uid)
    let s2 : DBState := { s1 with users := s1.users.filter (fun u => u.id ≠ uid) }
    if hit then (.noContent, s2) else (.notFound, s2)

/-! ## `routes/phoneNumbers.js` handlers -/

/-- `GET /api/phone-numbers/contact/:contactId`: ownership check, then
`SELECT * FROM contact_phone_numbers WHERE contact_id = $1
ORDER BY is_primary DESC, phone_type ASC`. -/
def listByContact (s : DBState) (principal cid : Nat) :
    Outcome × Option (List PhoneNumber) :=
  match s.contacts.find? (fun c => c.id == cid) with
  | none => (.notFound, none)
  | some c =>
      if c.user_id ≠ principal then (.forbidden, none)
      else (.ok, some (List.insertionSort PhoneOrder (phonesOf s cid)))

/-- `POST /api/phone-numbers`: ownership check on the parent contact;
then, in one transaction, if `is_primary` is set first
`UPDATE contact_phone_numbers SET is_primary = false WHERE
contact_id = $1`, and insert the new row with its given flags
(`phone_type` defaulting to `'mobile'`, `is_primary` to `false`). -/
def createPhoneNumber (s : DBState) (principal contact_id : Nat)
    (phone_number : String) (phone_type : Option String)
    (is_primary : Option Bool) : Outcome × DBState :=
  match s.contacts.find? (fun c => c.id == contact_id) with
  | none => (.notFound, s)
  | some c =>
      if c.user_id ≠ principal then (.forbidden, s)
      else
        let pt := phone_type.getD "mobile"
        let ip := is_primary.getD false
        let s1 : DBState :=
          if ip then
            { s with phones := s.phones.map (fun q =>
                if q.contact_id == contact_id then { q with is_primary := false }
                else q) }
          else s
        (.created,
          { s1 with phones := s1.phones ++
              [⟨nextPhoneId s1, contact_id, phone_number, pt, ip⟩] })

/-- `PUT /api/phone-numbers/:id`: resolve the row joined to its parent
contact, enforce ownership; then, in one transaction, if
`is_primary === true` first clear the flag on the contact's other rows
(`WHERE contact_id = $1 AND id != $2`), and apply the `COALESCE`
patch to the target row. -/
def updatePhoneNumber (s : DBState) (principal pid : Nat)
    (phone_number phone_type : Option String)
    (is_primary : Option Bool) : Outcome × DBState :=
  match s.phones.find? (fun q => q.id == pid) with
  | none => (.notFound, s)
  | some ph =>
      match s.contacts.find? (fun c => c.id == ph.contact_id) with
      | none => (.notFound, s)
      | some c =>
          if c.user_id ≠ principal then (.forbidden, s)
          else
            let s1 : DBState :=
              if is_primary == some true then
                { s with phones := s.phones.map (fun q =>
                    if q.contact_id == ph.contact_id && q.id != pid then
                      { q with is_primary := false }
                    else q) }
              else s
            (.ok,
              { s1 with phones := s1.phones.map (fun q =>
                  if q.id == pid then
                    { q with
                      phone_number := phone_number.getD q.phone_number,
                      phone_type := phone_type.getD q.phone_type,
                      is_primary := is_primary.getD q.is_primary }
                  else q) })

/-! ## Spec-side ordering predicate (for comparison with the code)

Invariant I5 of the specification, stated in the spec's own words:
phone numbers are listed primary first, then alphabetical by type. -/

/-- Modelled from the spec: a phone-number list is "ordered per I5"
when it is pairwise sorted by primary-first-then-type. -/
def specOrderedPerI5 (l : List PhoneNumber) : Prop :=
  l.Pairwise PhoneOrder

instance (l : List PhoneNumber) : Decidable (specOrderedPerI5 l) := by
  unfold specOrderedPerI5; infer_instance

/-! ## Helper lemmas -/

/-- Each pass of the contact-creation phone loop appends one row per
payload element; the appended rows carry the new contact's id and the
`|| 'mobile'` default for the type. -/
theorem insertContactPhones_phones (cid : Nat) :
    ∀ (l : List PhonePayload) (st : DBState),
      ∃ rows : List PhoneNumber,
        (insertContactPhones cid l st).phones = st.phones ++ rows ∧
        rows.length = l.length ∧
        ∀ q ∈ rows, q.contact_id = cid ∧
          ∃ p ∈ l, q.phone_type = jsOrStr p.phone_type "mobile" ∧
            q.is_primary = p.is_primary.getD false
  | [], st => ⟨[], by simp [insertContactPhones], rfl, by simp⟩
  | p :: tl, st => by
    have hstep : insertContactPhones cid (p :: tl) st =
        insertContactPhones cid tl
          { st with phones := st.phones ++
              [⟨nextPhoneId st, cid, p.phone_number,
                jsOrStr p.phone_type "mobile", p.is_primary.getD false⟩] } := rfl
    obtain ⟨rows, h1, h2, h3⟩ := insertContactPhones_phones cid tl
      { st with phones := st.phones ++
          [⟨nextPhoneId st, cid, p.phone_number,
            jsOrStr p.phone_type "mobile", p.is_primary.getD false⟩] }
    refine ⟨⟨nextPhoneId st, cid, p.phone_number,
        jsOrStr p.phone_type "mobile", p.is_primary.getD false⟩ :: rows,
      ?_, ?_, ?_⟩
    · rw [hstep, h1]; simp
    · simp [h2]
    · intro q hq
      rcases List.mem_cons.mp hq with hq | hq
      · subst hq
        exact ⟨rfl, p, by simp, rfl, rfl⟩
      · obtain ⟨hcid, p', hp', hty, hpr⟩ := h3 q hq
        exact ⟨hcid, p', by simp [hp'], hty, hpr⟩

/-- `(T + l - 1) / l` is the ceiling of `T / l`: its multiple of `l`
is the least one reaching `T`. -/
theorem ceil_div_characterization (T l : Nat) (hl : 0 < l) :
    T ≤ ((T + l - 1) / l) * l ∧ ((T + l - 1) / l) * l < T + l := by
  have hdm := Nat.div_add_mod (T + l - 1) l
  have hmod : (T + l - 1) % l < l := Nat.mod_lt _ hl
  rw [Nat.mul_comm]
  generalize hq : (T + l - 1) / l = q at hdm ⊢
  generalize hP : l * q = P at hdm ⊢
  generalize hm : (T + l - 1) % l = m at hdm hmod
  omega

/-- Summing the window sizes `min l (T - i·l)` over the
`(T + l - 1) / l` pages recovers `T`. -/
theorem sum_min_window (l : Nat) (hl : 0 < l) :
    ∀ T, (∑ i ∈ Finset.range ((T + l - 1) / l), min l (T - i * l)) = T := by
  intro T
  induction T using Nat.strong_induction_on with
  | _ T ih =>
    rcases Nat.eq_zero_or_pos T with hT | hT
    · subst hT
      have h0 : (0 + l - 1) / l = 0 := Nat.div_eq_of_lt (by omega)
      simp [h0]
    · have hrec : (T + l - 1) / l = ((T - l) + l - 1) / l + 1 := by
        rcases le_or_lt T l with h | h
        · have h1 : T + l - 1 = (T - 1) + l := by omega
          have h2 : (T - 1) / l = 0 := Nat.div_eq_of_lt (by omega)
          have h4 : T - l = 0 := by omega
          have h5 : (0 + l - 1) / l = 0 := Nat.div_eq_of_lt (by omega)
          rw [h1, Nat.add_div_right _ hl, h2, h4, h5]
        · have h1 : T + l - 1 = ((T - l) + l - 1) + l := by omega
          rw [h1, Nat.add_div_right _ hl]
      have hshift : ∀ i : Nat, min l (T - (i + 1) * l) = min l ((T - l) - i * l) := by
        intro i
        rw [Nat.succ_mul]
        generalize i * l = k
        congr 1
        omega
      rw [hrec, Finset.sum_range_succ']
      have hcong : (∑ i ∈ Finset.range (((T - l) + l - 1) / l),
            min l (T - (i + 1) * l)) =
          ∑ i ∈ Finset.range (((T - l) + l - 1) / l), min l ((T - l) - i * l) :=
        Finset.sum_congr rfl (fun i _ => hshift i)
      rw [hcong, ih (T - l) (by omega)]
      rcases le_total l T with h | h
      · rw [Nat.zero_mul, Nat.sub_zero, min_eq_left h]
        omega
      · rw [Nat.zero_mul, Nat.sub_zero, min_eq_right h]
        omega

/-! ## Claim theorems -/

/-- C1: the claim says that creating a contact with two phone numbers
both marked primary commits with exactly one row `primary = true`.
The creation handler inserts each nested phone number with its given
`is_primary` flag and never clears the others, so Scenario A of the
spec commits with BOTH rows primary: evaluating the handler on
`{name:"Alice", phoneNumbers:[{number:"555-1",isPrimary:true},
{number:"555-2",isPrimary:true}]}` yields two primary rows for the
fresh contact. -/
theorem create_contact_commits_two_primaries :
    ((createContact ⟨[⟨1, "u"⟩], [], []⟩ 1 "Alice" none none none
        [⟨"555-1", none, some true⟩, ⟨"555-2", none, some true⟩]).2.phones.map
      (fun q => (q.contact_id, q.phone_number, q.is_primary))) =
      [(1, "555-1", true), (1, "555-2", true)] ∧
    ((createContact ⟨[⟨1, "u"⟩], [], []⟩ 1 "Alice" none none none
        [⟨"555-1", none, some true⟩, ⟨"555-2", none, some true⟩]).2.phones.filter
      (fun q => q.contact_id == 1 && q.is_primary)).length = 2 := by
  constructor <;> decide

/-- C2: the claim says `deleteUser` also removes every phone number of
the user's former contacts.  The handler's transaction issues only
`DELETE FROM contacts WHERE user_id = $1` and `DELETE FROM users WHERE
id = $1`; no statement touches `contact_phone_numbers`, so the phone
table is preserved verbatim by every `deleteUser` call, and on a user
owning a contact with one phone number the phone row survives the
committed delete as an orphan. -/
theorem delete_user_leaves_phone_rows :
    (∀ (s : DBState) (p uid : Nat), ((deleteUser s p uid).2).phones = s.phones) ∧
    (deleteUser ⟨[⟨1, "u"⟩], [⟨10, 1, "c", false, none, none⟩],
        [⟨100, 10, "555", "mobile", true⟩]⟩ 1 1).1 = .noContent ∧
    ((deleteUser ⟨[⟨1, "u"⟩], [⟨10, 1, "c", false, none, none⟩],
        [⟨100, 10, "555", "mobile", true⟩]⟩ 1 1).2).contacts = [] ∧
    ((deleteUser ⟨[⟨1, "u"⟩], [⟨10, 1, "c", false, none, none⟩],
        [⟨100, 10, "555", "mobile", true⟩]⟩ 1 1).2).phones =
      [⟨100, 10, "555", "mobile", true⟩] := by
  refine ⟨fun s p uid => ?_, by decide, by decide, by decide⟩
  unfold deleteUser
  split
  · rfl
  · dsimp only
    split <;> rfl

/-- C4: a contact update issued by a principal that does not own the
contact answers `Forbidden` and leaves the whole store — in particular
the contact's stored name — unchanged; no write happens. -/
theorem update_contact_by_nonowner_forbidden
    (s : DBState) (A B cid : Nat) (c : Contact)
    (hfind : s.contacts.find? (fun c0 => c0.id == cid) = some c)
    (hown : c.user_id = A) (hne : B ≠ A)
    (nm : Option String) (em : Option Bool) (rel im : Option String) :
    updateContact s B cid nm em rel im = (.forbidden, s) := by
  simp only [updateContact, hfind]
  simp [hown, Ne.symm hne]

/-- Witness for C4: user 2 updating contact 5 owned by user 1 is
rejected with no change to the store. -/
theorem update_contact_by_nonowner_forbidden_witness :
    updateContact ⟨[⟨1, "A"⟩, ⟨2, "B"⟩], [⟨5, 1, "c", false, none, none⟩], []⟩
        2 5 (some "x") none none none =
      (.forbidden, ⟨[⟨1, "A"⟩, ⟨2, "B"⟩], [⟨5, 1, "c", false, none, none⟩], []⟩) :=
  update_contact_by_nonowner_forbidden
    ⟨[⟨1, "A"⟩, ⟨2, "B"⟩], [⟨5, 1, "c", false, none, none⟩], []⟩
    1 2 5 ⟨5, 1, "c", false, none, none⟩ (by decide) rfl (by decide) _ _ _ _

/-- C5 counterexample: the claim says non-positive page input is
clamped to the default and the offset is never negative, but
`parseInt('-5') || 1` keeps `-5` (only `NaN` and `0` are falsy), so a
request with `page=-5` keeps page `-5` and computes offset `-60`. -/
theorem paginate_negative_page_counterexample :
    (paginate (some (-5)) none).page = -5 ∧
    (paginate (some (-5)) none).offset = -60 ∧
    (paginate (some (-5)) none).offset < 0 := by
  refine ⟨rfl, rfl, by decide⟩

/-- C5 amended: `page` defaults to 1 and `limit` to 10; non-numeric
and zero inputs fall back to the default; every other integer —
negative included — is kept, so the offset `(page - 1) * limit` is
negative whenever the page input is negative and the limit positive. -/
theorem paginate_spec :
    (∀ lq, (paginate none lq).page = 1) ∧
    (∀ pq, (paginate pq none).limit = 10) ∧
    (∀ lq, (paginate (some 0) lq).page = 1) ∧
    (∀ pq, (paginate pq (some 0)).limit = 10) ∧
    (∀ (p : Int) lq, p ≠ 0 → (paginate (some p) lq).page = p) ∧
    (∀ pq (l : Int), l ≠ 0 → (paginate pq (some l)).limit = l) ∧
    (∀ pq lq, (paginate pq lq).offset =
      ((paginate pq lq).page - 1) * (paginate pq lq).limit) ∧
    (∀ (p l : Int), p < 0 → 0 < l →
      (paginate (some p) (some l)).offset < 0) := by
  refine ⟨fun lq => rfl, fun pq => rfl, fun lq => rfl, fun pq => rfl,
    fun p lq hp => by simp [paginate, jsParseIntOr, hp],
    fun pq l hl => by simp [paginate, jsParseIntOr, hl],
    fun pq lq => rfl, fun p l hp hl => ?_⟩
  have hp0 : p ≠ 0 := by omega
  simp only [paginate, jsParseIntOr, if_neg hp0]
  exact mul_neg_of_neg_of_pos (by omega) (by split <;> omega)

/-- Witness for C5 (amended): page input `-5` with limit input `10`
computes a negative offset. -/
theorem paginate_spec_witness :
    (paginate (some (-5)) (some 10)).offset < 0 :=
  paginate_spec.2.2.2.2.2.2.2 (-5) 10 (by decide) (by decide)

/-- C9: the transaction helper of `lib/db.js` commits and returns the
callback's value exactly when the callback completes without fault,
rolls the state back to the pre-transaction state on any failure, and
restores the pool occupancy (connection released) on both exit
paths. -/
theorem transaction_commit_rollback_release {α : Type}
    (p : Pool) (db : DBState)
    (cb : DBState → Except String (α × DBState)) (hp : 0 < p.available) :
    (∀ a db', cb db = .ok (a, db') → transaction p db cb = (.ok a, db', p)) ∧
    (∀ e, cb db = .error e → transaction p db cb = (.error e, db, p)) := by
  obtain ⟨a, u⟩ := p
  have ha : 0 < a := hp
  have hpool : (⟨a - 1 + 1, u + 1 - 1⟩ : Pool) = (⟨a, u⟩ : Pool) := by
    simp only [Pool.mk.injEq]; omega
  constructor
  · intro a db' h
    simp only [transaction, h, hpool]
  · intro e h
    simp only [transaction, h, hpool]

/-- Witness for C9: a pool with one free connection runs a succeeding
callback, commits its state, and ends with the pool unchanged. -/
theorem transaction_commit_rollback_release_witness :
    transaction ⟨1, 0⟩ ⟨[], [], []⟩
        (fun db => .ok (42, db)) = (.ok 42, ⟨[], [], []⟩, ⟨1, 0⟩) :=
  (transaction_commit_rollback_release ⟨1, 0⟩ ⟨[], [], []⟩
    (fun db => .ok (42, db)) (by decide)).1 42 ⟨[], [], []⟩ rfl

/-- C10: a phone-number creation whose payload omits the type field
stores `'mobile'`: the standalone route destructures with
`phone_type = 'mobile'`, and the nested contact-creation loop inserts
`phone.phone_type || 'mobile'`; in both cases an absent type commits
as `'mobile'`. -/
theorem phone_type_defaults_to_mobile :
    (∀ (s : DBState) (principal cid : Nat) (num : String) (c : Contact)
        (ip : Option Bool),
      s.contacts.find? (fun c0 => c0.id == cid) = some c →
      c.user_id = principal →
      ((createPhoneNumber s principal cid num none ip).2.phones.getLast?).map
        (fun q => q.phone_type) = some "mobile") ∧
    (∀ (s : DBState) (principal : Nat) (name : String) (em : Option Bool)
        (rel im : Option String) (l : List PhonePayload),
      (∀ p ∈ l, p.phone_type = none) →
      ∃ rows : List PhoneNumber,
        (createContact s principal name em rel im l).2.phones =
          s.phones ++ rows ∧
        rows.length = l.length ∧
        ∀ q ∈ rows, q.phone_type = "mobile") := by
  constructor
  · intro s principal cid num c ip hfind hown
    simp only [createPhoneNumber, hfind]
    rw [if_neg (by simp [hown])]
    simp [List.getLast?_concat]
  · intro s principal name em rel im l htypes
    obtain ⟨rows, h1, h2, h3⟩ := insertContactPhones_phones (nextContactId s) l
      { s with contacts := s.contacts ++
          [⟨nextContactId s, principal, name, em.getD false, rel, im⟩] }
    refine ⟨rows, h1, h2, fun q hq => ?_⟩
    obtain ⟨-, p, hp, hty, -⟩ := h3 q hq
    rw [hty, htypes p hp]
    rfl

/-- Witness for C10: creating a phone number for owned contact 1 with
no type field stores type `'mobile'`. -/
theorem phone_type_defaults_to_mobile_witness :
    ((createPhoneNumber ⟨[⟨1, "u"⟩], [⟨1, 1, "c", false, none, none⟩], []⟩
        1 1 "555" none none).2.phones.getLast?).map
      (fun q => q.phone_type) = some "mobile" :=
  phone_type_defaults_to_mobile.1
    ⟨[⟨1, "u"⟩], [⟨1, 1, "c", false, none, none⟩], []⟩
    1 1 "555" ⟨1, 1, "c", false, none, none⟩ none (by decide) rfl

/-- C3: the primary-phone manager.  On create with `is_primary` true
the transaction first clears the flag on the contact's rows and then
inserts the target as the contact's only primary row; on create with
the flag false or absent the store gains exactly the new row with its
given flag (default false) and nothing else changes; on update with
`is_primary === true` the flag is cleared on every other row of the
contact and the target is persisted primary; on update with the flag
false or absent no other row is modified and the target's flag is the
given value (kept when absent). -/
theorem primary_flag_manager_spec :
    (∀ (s : DBState) (principal cid : Nat) (num : String)
        (pt : Option String) (c : Contact),
      s.contacts.find? (fun c0 => c0.id == cid) = some c →
      c.user_id = principal →
      (((createPhoneNumber s principal cid num pt (some true)).2.phones.filter
          (fun q => q.contact_id == cid && q.is_primary)).length = 1 ∧
       (∃ q ∈ (createPhoneNumber s principal cid num pt (some true)).2.phones,
          q.contact_id = cid ∧ q.is_primary = true ∧ q.phone_number = num) ∧
       (∀ r ∈ s.phones, r.contact_id ≠ cid →
          r ∈ (createPhoneNumber s principal cid num pt (some true)).2.phones))) ∧
    (∀ (s : DBState) (principal cid : Nat) (num : String)
        (pt : Option String) (c : Contact) (ip : Option Bool),
      s.contacts.find? (fun c0 => c0.id == cid) = some c →
      c.user_id = principal →
      ip.getD false = false →
      (createPhoneNumber s principal cid num pt ip).2.phones =
        s.phones ++ [⟨nextPhoneId s, cid, num, pt.getD "mobile", false⟩]) ∧
    (∀ (s : DBState) (principal pid : Nat) (pn pt : Option String)
        (ph : PhoneNumber) (c : Contact),
      s.phones.find? (fun q => q.id == pid) = some ph →
      s.contacts.find? (fun c0 => c0.id == ph.contact_id) = some c →
      c.user_id = principal →
      ((∃ q ∈ (updatePhoneNumber s principal pid pn pt (some true)).2.phones,
          q.id = pid ∧ q.is_primary = true) ∧
       (∀ r ∈ (updatePhoneNumber s principal pid pn pt (some true)).2.phones,
          r.contact_id = ph.contact_id → r.id ≠ pid → r.is_primary = false) ∧
       (∀ r ∈ s.phones, r.contact_id ≠ ph.contact_id → r.id ≠ pid →
          r ∈ (updatePhoneNumber s principal pid pn pt (some true)).2.phones))) ∧
    (∀ (s : DBState) (principal pid : Nat) (pn pt : Option String)
        (ph : PhoneNumber) (c : Contact) (ip : Option Bool),
      s.phones.find? (fun q => q.id == pid) = some ph →
      s.contacts.find? (fun c0 => c0.id == ph.contact_id) = some c →
      c.user_id = principal →
      (ip = none ∨ ip = some false) →
      ((∀ r ∈ s.phones, r.id ≠ pid →
          r ∈ (updatePhoneNumber s principal pid pn pt ip).2.phones) ∧
       (∃ q ∈ (updatePhoneNumber s principal pid pn pt ip).2.phones,
          q.id = pid ∧ q.is_primary = ip.getD ph.is_primary))) := by
  refine ⟨?_, ?_, ?_, ?_⟩
  · -- create, makePrimary = true
    intro s principal cid num pt c hfind hown
    simp only [createPhoneNumber, hfind]
    rw [if_neg (by simp [hown])]
    simp only [Option.getD_some, if_pos trivial]
    refine ⟨?_, ?_, ?_⟩
    · rw [List.filter_append]
      have hnil : (s.phones.map (fun q =>
          if q.contact_id == cid then { q with is_primary := false }
          else q)).filter (fun q => q.contact_id == cid && q.is_primary) = [] := by
        rw [List.filter_eq_nil_iff]
        intro b hb
        obtain ⟨q, -, hq⟩ := List.mem_map.mp hb
        by_cases hc : q.contact_id == cid
        · rw [if_pos hc] at hq
          subst hq; simp
        · rw [if_neg hc] at hq
          subst hq; simp_all
      rw [hnil]
      simp
    · exact ⟨⟨nextPhoneId
          { s with phones := s.phones.map (fun q =>
              if q.contact_id == cid then { q with is_primary := false }
              else q) }, cid, num, pt.getD "mobile", true⟩,
        by simp, rfl, rfl, rfl⟩
    · intro r hr hne
      refine List.mem_append_left _ (List.mem_map.mpr ⟨r, hr, ?_⟩)
      rw [if_neg (by simpa using hne)]
  · -- create, makePrimary false or absent
    intro s principal cid num pt c ip hfind hown hip
    simp only [createPhoneNumber, hfind]
    rw [if_neg (by simp [hown])]
    simp only [hip, if_neg Bool.false_ne_true]
  · -- update, makePrimary = true
    intro s principal pid pn pt ph c hfp hfc hown
    have hid : ph.id = pid := by simpa using List.find?_some hfp
    have hmem : ph ∈ s.phones := List.mem_of_find?_eq_some hfp
    simp only [updatePhoneNumber, hfp, hfc]
    rw [if_neg (by simp [hown])]
    simp only [beq_self_eq_true, if_pos rfl]
    set clear2 : PhoneNumber → PhoneNumber := fun q =>
      if q.contact_id == ph.contact_id && q.id != pid then
        { q with is_primary := false } else q with hclear2
    set patch : PhoneNumber → PhoneNumber := fun q =>
      if q.id == pid then
        { q with
          phone_number := pn.getD q.phone_number,
          phone_type := pt.getD q.phone_type,
          is_primary := (some true).getD q.is_primary }
      else q with hpatch
    refine ⟨?_, ?_, ?_⟩
    · refine ⟨patch (clear2 ph), List.mem_map.mpr
        ⟨clear2 ph, List.mem_map.mpr ⟨ph, hmem, rfl⟩, rfl⟩, ?_⟩
      have hc2 : clear2 ph = ph := by
        rw [hclear2]
        simp [hid]
      rw [hc2, hpatch]
      simp [hid]
    · intro r hr hrc hrid
      obtain ⟨b, hb, hbr⟩ := List.mem_map.mp hr
      obtain ⟨q, hq, hqb⟩ := List.mem_map.mp hb
      have hbid : b.id = q.id := by
        rw [← hqb, hclear2]
        by_cases h : q.contact_id == ph.contact_id && q.id != pid <;> simp [h]
      by_cases hqid : q.id = pid
      · exfalso
        apply hrid
        rw [← hbr, hpatch]
        simp [hbid, hqid]
      · have hbr' : r = b := by
          rw [← hbr, hpatch]
          simp [hbid, hqid]
        have hrq : r.contact_id = q.contact_id := by
          rw [hbr', ← hqb, hclear2]
          by_cases h : q.contact_id == ph.contact_id && q.id != pid <;> simp [h]
        rw [hbr', ← hqb, hclear2]
        rw [hrq] at hrc
        simp [hrc, hqid]
    · intro r hr hrc hrid
      refine List.mem_map.mpr ⟨clear2 r, List.mem_map.mpr ⟨r, hr, rfl⟩, ?_⟩
      have hc2 : clear2 r = r := by
        rw [hclear2]
        simp [hrc]
      rw [hc2, hpatch]
      simp [hrid]
  · -- update, makePrimary false or absent
    intro s principal pid pn pt ph c ip hfp hfc hown hip
    have hid : ph.id = pid := by simpa using List.find?_some hfp
    have hmem : ph ∈ s.phones := List.mem_of_find?_eq_some hfp
    have hipne : (ip == some true) = false := by
      rcases hip with h | h <;> subst h <;> rfl
    simp only [updatePhoneNumber, hfp, hfc]
    rw [if_neg (by simp [hown])]
    simp only [hipne, Bool.false_eq_true, if_neg (by simp : ¬False)]
    constructor
    · intro r hr hrid
      refine List.mem_map.mpr ⟨r, hr, ?_⟩
      simp [hrid]
    · refine ⟨⟨pid, ph.contact_id, pn.getD ph.phone_number,
          pt.getD ph.phone_type, ip.getD ph.is_primary⟩,
        List.mem_map.mpr ⟨ph, hmem, ?_⟩, rfl, rfl⟩
      simp [hid]

/-- Witness for C3: updating phone 2 of contact 1 to primary clears
the flag on phone 1 and leaves phone 2 as the only primary row. -/
theorem primary_flag_manager_spec_witness :
    ∃ q ∈ (updatePhoneNumber
        ⟨[⟨1, "u"⟩], [⟨1, 1, "c", false, none, none⟩],
          [⟨1, 1, "a", "mobile", true⟩, ⟨2, 1, "b", "home", false⟩]⟩
        1 2 none none (some true)).2.phones,
      q.id = 2 ∧ q.is_primary = true :=
  (primary_flag_manager_spec.2.2.1
    ⟨[⟨1, "u"⟩], [⟨1, 1, "c", false, none, none⟩],
      [⟨1, 1, "a", "mobile", true⟩, ⟨2, 1, "b", "home", false⟩]⟩
    1 2 none none ⟨2, 1, "b", "home", false⟩ ⟨1, 1, "c", false, none, none⟩
    (by decide) (by decide) rfl).1

/-- C6 counterexample: the claim says the contact aggregate attaches
phone numbers ordered primary-first then by type, but the aggregate
queries carry no `ORDER BY`: a contact stored with a non-primary
`work` row before a primary `mobile` row is returned in exactly that
store order, which violates the I5 ordering. -/
theorem contact_aggregate_unordered_counterexample :
    (getContact ⟨[⟨1, "u"⟩], [⟨1, 1, "c", false, none, none⟩],
        [⟨1, 1, "a", "work", false⟩, ⟨2, 1, "b", "mobile", true⟩]⟩ 1 1).2 =
      some (⟨1, 1, "c", false, none, none⟩,
        [⟨1, 1, "a", "work", false⟩, ⟨2, 1, "b", "mobile", true⟩]) ∧
    ¬ specOrderedPerI5
        [⟨1, 1, "a", "work", false⟩, ⟨2, 1, "b", "mobile", true⟩] := by
  exact ⟨by decide, by decide⟩

/-- C6 amended: the aggregate (single get or list) attaches all and
only the contact's phone numbers, in store order (a sublist of the
phone table, not re-sorted); only the standalone
`GET /phone-numbers/contact/:id` endpoint returns them sorted per I5;
and a list assembly preserves the input contact ordering. -/
theorem contact_aggregate_assembly_spec :
    (∀ (s : DBState) (principal cid : Nat) (c : Contact)
        (ph : List PhoneNumber),
      getContact s principal cid = (.ok, some (c, ph)) →
      (List.Sublist ph s.phones ∧
       ∀ q : PhoneNumber, q ∈ ph ↔ (q ∈ s.phones ∧ q.contact_id = cid))) ∧
    (∀ (s : DBState) (principal cid : Nat) (l : List PhoneNumber),
      listByContact s principal cid = (.ok, some l) →
      (l.Sorted PhoneOrder ∧
       ∀ q : PhoneNumber, q ∈ l ↔ (q ∈ s.phones ∧ q.contact_id = cid))) ∧
    (∀ (s : DBState) (uid page limit : Nat),
      (listByUser s uid page limit).1.map Prod.fst =
        ((ownedContacts s uid).drop ((page - 1) * limit)).take limit ∧
      ∀ pr ∈ (listByUser s uid page limit).1, pr.2 = phonesOf s pr.1.id) := by
  refine ⟨?_, ?_, ?_⟩
  · intro s principal cid c ph h
    unfold getContact at h
    cases hf : s.contacts.find? (fun c0 => c0.id == cid) with
    | none => rw [hf] at h; simp at h
    | some c' =>
        rw [hf] at h
        dsimp only at h
        by_cases hu : c'.user_id ≠ principal
        · rw [if_pos hu] at h
          simp at h
        · rw [if_neg hu] at h
          simp only [Prod.mk.injEq, Option.some.injEq, true_and] at h
          obtain ⟨-, hph⟩ := h
          cases hph
          refine ⟨List.filter_sublist _, fun q => ?_⟩
          unfold phonesOf
          simp [List.mem_filter]
  · intro s principal cid l h
    unfold listByContact at h
    cases hf : s.contacts.find? (fun c0 => c0.id == cid) with
    | none => rw [hf] at h; simp at h
    | some c' =>
        rw [hf] at h
        dsimp only at h
        by_cases hu : c'.user_id ≠ principal
        · rw [if_pos hu] at h
          simp at h
        · rw [if_neg hu] at h
          simp only [Prod.mk.injEq, Option.some.injEq, true_and] at h
          cases h
          refine ⟨List.sorted_insertionSort PhoneOrder _, fun q => ?_⟩
          unfold phonesOf
          simp [List.mem_insertionSort, List.mem_filter]
  · intro s uid page limit
    constructor
    · simp [listByUser, Function.comp_def]
    · intro pr hpr
      simp only [listByUser, List.mem_map] at hpr
      obtain ⟨c, -, hc⟩ := hpr
      rw [← hc]

/-- Witness for C6 (amended): the standalone listing endpoint returns
the contact's rows sorted primary-first. -/
theorem contact_aggregate_assembly_spec_witness :
    ([⟨2, 1, "b", "mobile", true⟩, ⟨1, 1, "a", "work", false⟩] :
        List PhoneNumber).Sorted PhoneOrder :=
  (contact_aggregate_assembly_spec.2.1
    ⟨[⟨1, "u"⟩], [⟨1, 1, "c", false, none, none⟩],
      [⟨1, 1, "a", "work", false⟩, ⟨2, 1, "b", "mobile", true⟩]⟩
    1 1 [⟨2, 1, "b", "mobile", true⟩, ⟨1, 1, "a", "work", false⟩]
    (by decide)).1

/-- C7: for positive page and limit the listing returns at most
`limit` contacts, exactly the window starting at offset
`(page - 1) * limit` of the ordered owner rows; the reported total is
the full number of the owner's contacts regardless of the window; the
reported page count is the ceiling of `total / limit` (its multiple of
`limit` is the least one covering `total`); and the page lengths over
pages `1..pages` sum to the total. -/
theorem pagination_window_and_total_spec (s : DBState) (uid page limit : Nat)
    (hp : 0 < page) (hl : 0 < limit) :
    ((listByUser s uid page limit).1.length ≤ limit) ∧
    ((listByUser s uid page limit).1.map Prod.fst =
      ((ownedContacts s uid).drop ((page - 1) * limit)).take limit) ∧
    ((listByUser s uid page limit).2.1 = (ownedContacts s uid).length) ∧
    ((listByUser s uid page limit).2.1 ≤
        (listByUser s uid page limit).2.2 * limit ∧
      (listByUser s uid page limit).2.2 * limit <
        (listByUser s uid page limit).2.1 + limit) ∧
    ((∑ i ∈ Finset.range (listByUser s uid page limit).2.2,
        (listByUser s uid (i + 1) limit).1.length) =
      (listByUser s uid page limit).2.1) := by
  have hN : (s.contacts.filter (fun c => c.user_id == uid)).length =
      (ownedContacts s uid).length :=
    ((List.perm_insertionSort ContactOrder
      (s.contacts.filter (fun c => c.user_id == uid))).length_eq).symm
  have hlen : ∀ i : Nat, (listByUser s uid (i + 1) limit).1.length =
      min limit ((ownedContacts s uid).length - i * limit) := by
    intro i
    simp [listByUser]
  refine ⟨?_, ?_, ?_, ?_, ?_⟩
  · simp [listByUser]
  · simp [listByUser, Function.comp_def]
  · exact hN
  · simpa only [listByUser, hN] using
      ceil_div_characterization (ownedContacts s uid).length limit hl
  · show (∑ i ∈ Finset.range
        (((s.contacts.filter (fun c => c.user_id == uid)).length + limit - 1)
          / limit),
        (listByUser s uid (i + 1) limit).1.length) = _
    rw [Finset.sum_congr rfl (fun i _ => hlen i)]
    show _ = (s.contacts.filter (fun c => c.user_id == uid)).length
    rw [hN]
    exact sum_min_window limit hl _

/-- Witness for C7: a user with one contact listed with page 1 and
limit 10 satisfies the window/total/pages contract. -/
theorem pagination_window_and_total_spec_witness :
    (listByUser ⟨[⟨1, "u"⟩], [⟨1, 1, "c", false, none, none⟩], []⟩
        1 1 10).1.length ≤ 10 :=
  (pagination_window_and_total_spec
    ⟨[⟨1, "u"⟩], [⟨1, 1, "c", false, none, none⟩], []⟩
    1 1 10 (by decide) (by decide)).1

/-- C8: the contact listing returns emergency contacts before
non-emergency ones and, within a group, names in ascending order
(pairwise, any earlier row is emergency whenever a later one is, and
equal-flag rows have ascending names); concretely, Scenario B: a user
with non-emergency C1 and emergency C2 is listed as `[C2, C1]`. -/
theorem contact_listing_order_spec :
    (∀ (s : DBState) (uid page limit : Nat),
      ((listByUser s uid page limit).1.map Prod.fst).Pairwise
        (fun a b => (b.is_emergency = true → a.is_emergency = true) ∧
          (a.is_emergency = b.is_emergency → a.name ≤ b.name))) ∧
    ((listByUser ⟨[⟨1, "U"⟩],
        [⟨1, 1, "C1", false, none, none⟩, ⟨2, 1, "C2", true, none, none⟩], []⟩
        1 1 10).1.map Prod.fst =
      [⟨2, 1, "C2", true, none, none⟩, ⟨1, 1, "C1", false, none, none⟩]) := by
  constructor
  · intro s uid page limit
    have hmap : (listByUser s uid page limit).1.map Prod.fst =
        ((ownedContacts s uid).drop ((page - 1) * limit)).take limit := by
      simp [listByUser, Function.comp_def]
    have hsort : (ownedContacts s uid).Pairwise ContactOrder :=
      List.sorted_insertionSort ContactOrder _
    have hsub : (((ownedContacts s uid).drop ((page - 1) * limit)).take
          limit).Sublist (ownedContacts s uid) :=
      (List.take_sublist _ _).trans (List.drop_sublist _ _)
    rw [hmap]
    refine (hsort.sublist hsub).imp ?_
    intro a b hab
    rcases hab with ⟨h1, h2⟩ | ⟨h1, h2⟩
    · exact ⟨fun _ => h1, fun he => absurd (h1.symm.trans he) (by simp [h2])⟩
    · exact ⟨fun hb => h1.trans hb, fun _ => h2⟩
  · decide

end Visionary
